import Mathlib

/-!
# Verification of the gyro-light-control spatial core

Shallow embedding, over exact real arithmetic, of the spatial-math,
calibration and filtering pipeline of the repository:

* `math_engine.py` : `normalize_vector`, `clamp`, `euler_to_direction`,
  `create_calibration_offset`, `apply_calibration`, `ray_box_intersection`;
* `schemas.py` : `SensorData`, `CalibrationState`, `InteractionResult`;
* `spatial_processor.py` : `SpatialProcessor` (`calibrate`,
  `reset_calibration`, `process`);
* `websocket_handler.py` : `LatencyBuffer` (`add_sample`, `get_interpolated`).

Machine floats are modelled by `ℝ`; Python's `%` on floats by `pymod`;
fallible code (`try`/`except`, the absence of a ray/box intersection)
by `Option` results, with an explicit fault oracle for the `except`
branches of the `SpatialProcessor` methods.
-/

noncomputable section

namespace GyroLight

/-- A 3-component vector, the model of a numpy array of shape (3,). -/
@[ext] structure Vec3 where
  x : ℝ
  y : ℝ
  z : ℝ

namespace Vec3

/-- Componentwise addition (numpy `+`). -/
def add (v w : Vec3) : Vec3 := ⟨v.x + w.x, v.y + w.y, v.z + w.z⟩

/-- Componentwise subtraction (numpy `-`). -/
def sub (v w : Vec3) : Vec3 := ⟨v.x - w.x, v.y - w.y, v.z - w.z⟩

/-- Scalar multiplication (numpy `scalar * vector`). -/
def smul (a : ℝ) (v : Vec3) : Vec3 := ⟨a * v.x, a * v.y, a * v.z⟩

/-- Componentwise division by a scalar (numpy `vector / scalar`). -/
def sdiv (v : Vec3) (a : ℝ) : Vec3 := ⟨v.x / a, v.y / a, v.z / a⟩

/-- Dot product (`np.dot` on two vectors). -/
def dot (v w : Vec3) : ℝ := v.x * w.x + v.y * w.y + v.z * w.z

/-- Cross product (`np.cross`). -/
def cross (v w : Vec3) : Vec3 :=
  ⟨v.y * w.z - v.z * w.y, v.z * w.x - v.x * w.z, v.x * w.y - v.y * w.x⟩

/-- Euclidean norm (`np.linalg.norm`). -/
def norm (v : Vec3) : ℝ := Real.sqrt (dot v v)

lemma dot_self_nonneg (v : Vec3) : 0 ≤ dot v v := by
  unfold dot; nlinarith [sq_nonneg v.x, sq_nonneg v.y, sq_nonneg v.z]

lemma norm_nonneg' (v : Vec3) : 0 ≤ norm v := Real.sqrt_nonneg _

lemma sq_norm (v : Vec3) : (norm v) ^ 2 = dot v v := by
  unfold norm; rw [Real.sq_sqrt (dot_self_nonneg v)]

end Vec3

/-- A 3×3 matrix, the model of a numpy array of shape (3,3), row major. -/
@[ext] structure Mat3 where
  m00 : ℝ
  m01 : ℝ
  m02 : ℝ
  m10 : ℝ
  m11 : ℝ
  m12 : ℝ
  m20 : ℝ
  m21 : ℝ
  m22 : ℝ

namespace Mat3

/-- The identity matrix (`np.eye(3)`). -/
def id3 : Mat3 := ⟨1, 0, 0, 0, 1, 0, 0, 0, 1⟩

/-- Matrix addition. -/
def add (A B : Mat3) : Mat3 :=
  ⟨A.m00 + B.m00, A.m01 + B.m01, A.m02 + B.m02,
   A.m10 + B.m10, A.m11 + B.m11, A.m12 + B.m12,
   A.m20 + B.m20, A.m21 + B.m21, A.m22 + B.m22⟩

/-- Scalar multiple of a matrix. -/
def smul (a : ℝ) (A : Mat3) : Mat3 :=
  ⟨a * A.m00, a * A.m01, a * A.m02,
   a * A.m10, a * A.m11, a * A.m12,
   a * A.m20, a * A.m21, a * A.m22⟩

/-- Matrix product (`np.dot` on two 3×3 matrices). -/
def mul (A B : Mat3) : Mat3 :=
  ⟨A.m00 * B.m00 + A.m01 * B.m10 + A.m02 * B.m20,
   A.m00 * B.m01 + A.m01 * B.m11 + A.m02 * B.m21,
   A.m00 * B.m02 + A.m01 * B.m12 + A.m02 * B.m22,
   A.m10 * B.m00 + A.m11 * B.m10 + A.m12 * B.m20,
   A.m10 * B.m01 + A.m11 * B.m11 + A.m12 * B.m21,
   A.m10 * B.m02 + A.m11 * B.m12 + A.m12 * B.m22,
   A.m20 * B.m00 + A.m21 * B.m10 + A.m22 * B.m20,
   A.m20 * B.m01 + A.m21 * B.m11 + A.m22 * B.m21,
   A.m20 * B.m02 + A.m21 * B.m12 + A.m22 * B.m22⟩

/-- Matrix transpose. -/
def transpose (A : Mat3) : Mat3 :=
  ⟨A.m00, A.m10, A.m20, A.m01, A.m11, A.m21, A.m02, A.m12, A.m22⟩

/-- Determinant of a 3×3 matrix. -/
def det (A : Mat3) : ℝ :=
  A.m00 * (A.m11 * A.m22 - A.m12 * A.m21)
  - A.m01 * (A.m10 * A.m22 - A.m12 * A.m20)
  + A.m02 * (A.m10 * A.m21 - A.m11 * A.m20)

/-- Matrix–vector product (`matrix @ vector`). -/
def mulVec (A : Mat3) (v : Vec3) : Vec3 :=
  ⟨A.m00 * v.x + A.m01 * v.y + A.m02 * v.z,
   A.m10 * v.x + A.m11 * v.y + A.m12 * v.z,
   A.m20 * v.x + A.m21 * v.y + A.m22 * v.z⟩

end Mat3

/-! ## math_engine.py -/

/-- `math_engine.clamp`: `max(min_val, min(value, max_val))`. -/
def clamp (value min_val max_val : ℝ) : ℝ := max min_val (min value max_val)

/-- `math_engine.normalize_vector`: divide by the Euclidean norm, with the
canonical fallback `(0, 1, 0)` when the magnitude is below `1e-10`. -/
def normalize_vector (vector : Vec3) : Vec3 :=
  if Vec3.norm vector < 1e-10 then ⟨0, 1, 0⟩
  else Vec3.sdiv vector (Vec3.norm vector)

/-- `np.radians`: degrees to radians. -/
def radians (x : ℝ) : ℝ := x * Real.pi / 180

/-- `math_engine.euler_to_direction`: sensor Euler angles to a unit
direction vector.  `gamma` is unused in the simplified formula; the sign
of `alpha` is inverted by design. -/
def euler_to_direction (alpha beta _gamma : ℝ) : Vec3 :=
  let alpha_rad := radians (-alpha)
  let beta_rad := radians beta
  normalize_vector
    ⟨Real.sin alpha_rad * Real.cos beta_rad,
     Real.cos alpha_rad * Real.cos beta_rad,
     Real.sin beta_rad⟩

/-- The skew-symmetric matrix `K` built from a rotation axis in
`math_engine.create_calibration_offset`. -/
def kmat (axis : Vec3) : Mat3 :=
  ⟨0, -axis.z, axis.y,
   axis.z, 0, -axis.x,
   -axis.y, axis.x, 0⟩

/-- Rodrigues' formula as written in the source:
`R = I + sin(angle) * K + (1 - cos(angle)) * (K @ K)`, abstracted over
the values of `sin(angle)` and `cos(angle)`. -/
def rodriguesMat (axis : Vec3) (s c : ℝ) : Mat3 :=
  Mat3.add (Mat3.add Mat3.id3 (Mat3.smul s (kmat axis)))
    (Mat3.smul (1 - c) (Mat3.mul (kmat axis) (kmat axis)))

/-- `math_engine.create_calibration_offset`: rotation matrix aligning
`current_vector` with `target_vector`, via Rodrigues' formula with
special cases for nearly aligned and nearly opposite inputs. -/
def create_calibration_offset (current_vector target_vector : Vec3) : Mat3 :=
  let current := normalize_vector current_vector
  let target := normalize_vector target_vector
  let dot_product := Vec3.dot current target
  if 0.9999 < dot_product then Mat3.id3
  else if dot_product < -0.9999 then
    let arbitrary_axis : Vec3 :=
      if 0.9 < |Vec3.dot current ⟨0, 0, 1⟩| then ⟨1, 0, 0⟩ else ⟨0, 0, 1⟩
    let axis := normalize_vector (Vec3.cross current arbitrary_axis)
    let angle := Real.pi
    rodriguesMat axis (Real.sin angle) (Real.cos angle)
  else
    let axis := normalize_vector (Vec3.cross current target)
    let angle := Real.arccos (clamp dot_product (-1) 1)
    rodriguesMat axis (Real.sin angle) (Real.cos angle)

/-- `math_engine.apply_calibration`: `normalize(rotation_matrix @ vector)`. -/
def apply_calibration (vector : Vec3) (rotation_matrix : Mat3) : Vec3 :=
  normalize_vector (Mat3.mulVec rotation_matrix vector)

/-- One pass of the slab loop of `math_engine.ray_box_intersection` for a
single axis.  The running `(t_near, t_far)` pair starts at `(-inf, +inf)`
in the source; a state of `none` stands for that not-yet-updated pair
(`t_near` and `t_far` are always first written on the same axis).  The
outer `none` is the early `return None`. -/
def axisStep (o d bn bx : ℝ) (st : Option (ℝ × ℝ)) :
    Option (Option (ℝ × ℝ)) :=
  if |d| < 1e-8 then
    if o < bn ∨ bx < o then none else some st
  else
    let t1 := (bn - o) / d
    let t2 := (bx - o) / d
    let p := if t2 < t1 then (t2, t1) else (t1, t2)
    match st with
    | none =>
      if p.2 < p.1 then none else some (some (p.1, p.2))
    | some (tn, tf) =>
      let tn' := max tn p.1
      let tf' := min tf p.2
      if tf' < tn' then none else some (some (tn', tf'))

/-- The slab loop of `ray_box_intersection` over the three axes, applied
to the already-normalized direction. -/
def slabLoop (o d bn bx : Vec3) : Option (Option (ℝ × ℝ)) :=
  match axisStep o.x d.x bn.x bx.x none with
  | none => none
  | some st1 =>
    match axisStep o.y d.y bn.y bx.y st1 with
    | none => none
    | some st2 => axisStep o.z d.z bn.z bx.z st2

/-- `math_engine.ray_box_intersection`: slab-method intersection of a ray
with an axis-aligned box.  The direction is normalized internally.  The
final `none => none` branch corresponds to the state in which no axis
updated `t_near`/`t_far` (all three axes parallel); in the Python source
that state would produce a non-finite point, and it is proved unreachable
below because the normalized direction always has a component of
magnitude at least `1e-8`. -/
def ray_box_intersection (origin direction box_min box_max : Vec3) :
    Option Vec3 :=
  let d := normalize_vector direction
  match slabLoop origin d box_min box_max with
  | none => none
  | some none => none
  | some (some (t_near, t_far)) =>
    if t_far < 0 then none
    else
      let t := if 0 ≤ t_near then t_near else t_far
      some (Vec3.add origin (Vec3.smul t d))

/-! ## schemas.py -/

/-- `schemas.SensorData`: one validated orientation sample
(`alpha` = yaw, `beta` = pitch, `gamma` = roll, optional timestamp). -/
structure SensorData where
  alpha : ℝ
  beta : ℝ
  gamma : ℝ
  timestamp : Option ℝ := none

/-- `schemas.CalibrationState`: the calibration record owned by a
`SpatialProcessor`.  The Python object stores the rotation matrix as a
list of lists; it is modelled directly as an optional `Mat3`. -/
structure CalibrationState where
  is_calibrated : Bool := false
  rotation_matrix : Option Mat3 := none
  target_direction : Option Vec3 := none

/-- `schemas.InteractionResult`: output of a successful `process` call. -/
structure InteractionResult where
  intersection : Vec3
  direction : Vec3
  calibrated : Bool
  raw_sensor : SensorData

/-! ## spatial_processor.py -/

/-- Python's `%` on floats for a positive modulus:
`x - modulus * floor (x / modulus)`. -/
def pymod (x modulus : ℝ) : ℝ := x - modulus * ⌊x / modulus⌋

/-- The mutable state of a `SpatialProcessor`: its calibration record
and the yaw offset captured at calibration time. -/
structure ProcState where
  calibration : CalibrationState
  alpha_offset : ℝ

/-- `SpatialProcessor.__init__`: calibration disabled, zero offset. -/
def initState : ProcState := ⟨{}, 0⟩

/-- `SpatialProcessor.calibrate`.  The body runs inside `try`/`except`;
`fault = true` plays the exception raised by one of the numeric library
calls of steps 2–4 (the spec's internal numeric fault, never expected
but caught by the `except` branch, which returns `False`).  Step 1,
`self._alpha_offset = current_sensor.alpha`, is a plain attribute
read and assignment that cannot raise, so it has always executed by the
time the `except` branch runs. -/
def calibrate (st : ProcState) (current_sensor : SensorData)
    (target_direction : Vec3) (fault : Bool) : ProcState × Bool :=
  let st1 : ProcState := { st with alpha_offset := current_sensor.alpha }
  if fault then (st1, false)
  else
    let corrected_alpha :=
      pymod (current_sensor.alpha - st1.alpha_offset) 360
    let current_vector :=
      euler_to_direction corrected_alpha current_sensor.beta
        current_sensor.gamma
    let target_norm :=
      Vec3.sdiv target_direction (Vec3.norm target_direction)
    let rotation_matrix := create_calibration_offset current_vector target_norm
    ({ st1 with
        calibration :=
          { is_calibrated := true
            rotation_matrix := some rotation_matrix
            target_direction := some target_direction } },
      true)

/-- `SpatialProcessor.reset_calibration`: restore the default
`CalibrationState` and zero the alpha offset. -/
def reset_calibration (_st : ProcState) : ProcState := ⟨{}, 0⟩

/-- `SpatialProcessor.process`.  As in the source, no field of the
processor is ever assigned, so the state component of the result is the
input state on every path; `fault = true` plays an exception caught by
the `except` branch, which returns `None`. -/
def process (st : ProcState) (sensor : SensorData)
    (user_position bounds_min bounds_max : Vec3) (fault : Bool) :
    ProcState × Option InteractionResult :=
  if fault then (st, none)
  else
    let corrected_alpha :=
      if st.calibration.is_calibrated then
        pymod (sensor.alpha - st.alpha_offset) 360
      else sensor.alpha
    let direction := euler_to_direction corrected_alpha sensor.beta sensor.gamma
    let direction' :=
      if st.calibration.is_calibrated then
        match st.calibration.rotation_matrix with
        | some matrix => apply_calibration direction matrix
        | none => direction
      else direction
    match ray_box_intersection user_position direction' bounds_min bounds_max with
    | none => (st, none)
    | some hit =>
      (st, some
        { intersection := hit
          direction := direction'
          calibrated := st.calibration.is_calibrated
          raw_sensor := sensor })

/-! ## websocket_handler.py : LatencyBuffer -/

/-- The `data` dict stored in a buffer entry: the three sensor channels
read back with `d.get(key, 0)`. -/
structure SensorDict where
  alpha : ℝ
  beta : ℝ
  gamma : ℝ

/-- One buffer entry: `{'data': ..., 'timestamp': ...}`. -/
structure BufferSample where
  data : SensorDict
  timestamp : ℝ

/-- `websocket_handler.LatencyBuffer`: a deque of at most `buffer_size`
samples, oldest first. -/
structure LatencyBuffer where
  buffer_size : ℕ
  samples : List BufferSample

/-- `LatencyBuffer.add_sample`: append, evicting the oldest sample when
the deque is at capacity (`deque(maxlen=buffer_size)`). -/
def add_sample (b : LatencyBuffer) (data : SensorDict) (timestamp : ℝ) :
    LatencyBuffer :=
  let s : BufferSample := ⟨data, timestamp⟩
  if b.samples.length < b.buffer_size then
    { b with samples := b.samples ++ [s] }
  else
    { b with samples := b.samples.tail ++ [s] }

/-- Interpolation of one non-circular channel:
`v1 + (v2 - v1) * factor`. -/
def lerp (v1 v2 factor : ℝ) : ℝ := v1 + (v2 - v1) * factor

/-- The alpha channel of `LatencyBuffer.get_interpolated`: shift the
endpoints by 360 across a wrap, interpolate, wrap back into `[0, 360)`. -/
def interpAlpha (v1 v2 factor : ℝ) : ℝ :=
  let p :=
    if 180 < |v2 - v1| then
      if 0 < v2 - v1 then (v1 + 360, v2) else (v1, v2 + 360)
    else (v1, v2)
  pymod (lerp p.1 p.2 factor) 360

/-- `LatencyBuffer.get_interpolated` at an explicit target time (the
source's `target_time=None` default reads the wall clock, which is
outside this model; every property below supplies the time). -/
def get_interpolated (b : LatencyBuffer) (target_time : ℝ) :
    Option SensorDict :=
  match b.samples.reverse with
  | [] => none
  | [s] => some s.data
  | sample2 :: sample1 :: _ =>
    let t1 := sample1.timestamp
    let t2 := sample2.timestamp
    if t2 - t1 = 0 then some sample2.data
    else
      let factor := max 0 (min 1.5 ((target_time - t1) / (t2 - t1)))
      let d1 := sample1.data
      let d2 := sample2.data
      some
        { alpha := interpAlpha d1.alpha d2.alpha factor
          beta := lerp d1.beta d2.beta factor
          gamma := lerp d1.gamma d2.gamma factor }

/-! ## Spec-side definitions

These definitions follow the words of the specification (`spec.md`) /
the claims, to be compared with the definitions above, which are
translated from the Python source. -/

/-- Tolerance relation used by the spec (`≈ target`, tolerance 0.01):
Euclidean distance at most `0.01`. -/
def approxEq (v w : Vec3) : Prop := Vec3.norm (Vec3.sub v w) ≤ 0.01

/-- The OrientationConverter contract as worded in the spec:
`normalize((sin(yaw_rad)*cos(pitch_rad), cos(yaw_rad)*cos(pitch_rad),
sin(pitch_rad)))` with `yaw_rad = radians(-yaw)`,
`pitch_rad = radians(pitch)`; roll accepted but unused. -/
def eulerSpec (yaw pitch _roll : ℝ) : Vec3 :=
  normalize_vector
    ⟨Real.sin (radians (-yaw)) * Real.cos (radians pitch),
     Real.cos (radians (-yaw)) * Real.cos (radians pitch),
     Real.sin (radians pitch)⟩

/-- One axis of the slab description of claim C4: a parallel axis
(`|direction[i]| < 1e-8`) rejects the ray exactly when the origin lies
outside the slab. -/
def parallelOutside (o d bn bx : ℝ) : Prop := |d| < 1e-8 ∧ ¬ (bn ≤ o ∧ o ≤ bx)

instance (o d bn bx : ℝ) : Decidable (parallelOutside o d bn bx) := by
  unfold parallelOutside; infer_instance

/-- The `(t_near, t_far)` contribution of one non-parallel axis:
`t1 = (box_min - o)/d` and `t2 = (box_max - o)/d`, swapped so that the
near value comes first. -/
def axisInterval (o d bn bx : ℝ) : Option (ℝ × ℝ) :=
  if |d| < 1e-8 then none
  else some (min ((bn - o) / d) ((bx - o) / d),
             max ((bn - o) / d) ((bx - o) / d))

/-- Accumulation of `t_near`/`t_far` over axes: `t_near` is the maximum
of the per-axis near values and `t_far` the minimum of the far values;
`none` stands for an axis that contributes no interval. -/
def joinInterval : Option (ℝ × ℝ) → Option (ℝ × ℝ) → Option (ℝ × ℝ)
  | none, b => b
  | some a, none => some a
  | some (l1, h1), some (l2, h2) => some (max l1 l2, min h1 h2)

/-- The slab method as stated by claim C4, applied to the internally
normalized direction: reject on any parallel axis whose origin
coordinate is outside the slab; otherwise accumulate `t_near`/`t_far`
over the axes, reject when `t_near > t_far` or `t_far < 0`, and
otherwise return `origin + direction * t` with `t = t_near` if
`t_near ≥ 0`, else `t_far`. -/
def slabSpec (o d bn bx : Vec3) : Option Vec3 :=
  if parallelOutside o.x d.x bn.x bx.x ∨ parallelOutside o.y d.y bn.y bx.y ∨
      parallelOutside o.z d.z bn.z bx.z then none
  else
    match joinInterval
        (joinInterval (axisInterval o.x d.x bn.x bx.x)
          (axisInterval o.y d.y bn.y bx.y))
        (axisInterval o.z d.z bn.z bx.z) with
    | none => none
    | some (t_near, t_far) =>
      if t_far < t_near ∨ t_far < 0 then none
      else
        let t := if 0 ≤ t_near then t_near else t_far
        some (Vec3.add o (Vec3.smul t d))

/-! ## Basic facts about `normalize_vector` -/

lemma norm_pos_of_ge (v : Vec3) (h : 1e-10 ≤ Vec3.norm v) : 0 < Vec3.norm v := by
  linarith

lemma dot_self_pos_of_ge (v : Vec3) (h : 1e-10 ≤ Vec3.norm v) :
    0 < Vec3.dot v v := by
  have h0 := norm_pos_of_ge v h
  have := Vec3.sq_norm v
  nlinarith

/-- The output of `normalize_vector` always has unit dot product with
itself: either the fallback `(0,1,0)` or an exact division by a norm of
magnitude at least `1e-10`. -/
lemma normalize_unit (v : Vec3) :
    Vec3.dot (normalize_vector v) (normalize_vector v) = 1 := by
  unfold normalize_vector
  split
  · simp [Vec3.dot]
  · rename_i h
    push_neg at h
    have hpos : 0 < Vec3.norm v := norm_pos_of_ge v h
    have hsq : Vec3.norm v ^ 2 = Vec3.dot v v := Vec3.sq_norm v
    have hne : Vec3.norm v ≠ 0 := ne_of_gt hpos
    simp only [Vec3.dot, Vec3.sdiv] at hsq ⊢
    field_simp
    linear_combination -hsq

/-- On inputs of norm at least `1e-10`, `normalize_vector` divides by
the norm. -/
lemma normalize_of_ge (v : Vec3) (h : 1e-10 ≤ Vec3.norm v) :
    normalize_vector v = Vec3.sdiv v (Vec3.norm v) := by
  unfold normalize_vector
  rw [if_neg (by linarith)]

/-- On inputs of norm below `1e-10`, `normalize_vector` falls back to
`(0, 1, 0)`. -/
lemma normalize_of_lt (v : Vec3) (h : Vec3.norm v < 1e-10) :
    normalize_vector v = ⟨0, 1, 0⟩ := by
  unfold normalize_vector
  rw [if_pos h]

/-! ## Python float modulus -/

lemma pymod_nonneg_lt (x : ℝ) : 0 ≤ pymod x 360 ∧ pymod x 360 < 360 := by
  have h1 : (⌊x / 360⌋ : ℝ) ≤ x / 360 := Int.floor_le _
  have h2 : x / 360 < ⌊x / 360⌋ + 1 := Int.lt_floor_add_one _
  have e : x / 360 * 360 = x := by ring
  have h1' := mul_le_mul_of_nonneg_right h1 (show (0:ℝ) ≤ 360 by norm_num)
  have h2' := mul_lt_mul_of_pos_right h2 (show (0:ℝ) < 360 by norm_num)
  rw [e] at h1' h2'
  unfold pymod
  constructor <;> nlinarith

/-! ## Shortest-arc interpolation (spec side) -/

/-- The yaw interpolation as worded by the spec and claim C6: when the
wrap applies, add 360 to whichever of `v1`, `v2` is smaller, interpolate
linearly, and wrap the result back into `[0, 360)`. -/
def shortestArcAlpha (v1 v2 factor : ℝ) : ℝ :=
  let p := if v1 < v2 then (v1 + 360, v2) else (v1, v2 + 360)
  pymod (lerp p.1 p.2 factor) 360

/-- On a wrap (`|v2 - v1| > 180`), the source's alpha interpolation is
exactly the spec's add-360-to-the-smaller rule. -/
lemma interpAlpha_eq_shortestArc (v1 v2 f : ℝ) (h : 180 < |v2 - v1|) :
    interpAlpha v1 v2 f = shortestArcAlpha v1 v2 f := by
  unfold interpAlpha shortestArcAlpha
  rw [if_pos h]
  rcases lt_trichotomy v1 v2 with hlt | heq | hgt
  · rw [if_pos (by linarith : 0 < v2 - v1), if_pos hlt]
  · exfalso
    rw [heq, sub_self, abs_zero] at h
    linarith
  · rw [if_neg (by linarith : ¬ 0 < v2 - v1), if_neg (by linarith : ¬ v1 < v2)]

/-! ## Rotation matrices -/

/-- A proper rotation: orthonormal columns and determinant `+1`. -/
def isProperRotation (R : Mat3) : Prop :=
  Mat3.mul (Mat3.transpose R) R = Mat3.id3 ∧ Mat3.det R = 1

lemma id3_proper : isProperRotation Mat3.id3 := by
  constructor
  · ext <;> simp [Mat3.mul, Mat3.transpose, Mat3.id3]
  · norm_num [Mat3.det, Mat3.id3]

/-- Rodrigues' formula `I + s K + (1 - c) K²` produces a proper rotation
whenever the axis is a unit vector and `s² + c² = 1`. -/
lemma rodriguesMat_proper (a : Vec3) (ha' : Vec3.dot a a = 1) (s c : ℝ)
    (hsc : s ^ 2 + c ^ 2 = 1) : isProperRotation (rodriguesMat a s c) := by
  obtain ⟨x, y, z⟩ := a
  simp only [Vec3.dot] at ha'
  constructor
  · ext <;>
      simp only [rodriguesMat, kmat, Mat3.mul, Mat3.add, Mat3.smul,
        Mat3.transpose, Mat3.id3]
    · linear_combination (y^2 + z^2) * hsc + (y^2 + z^2) * (1 - c)^2 * ha'
    · linear_combination (-(x*y)) * hsc + (-(x*y)) * (1 - c)^2 * ha'
    · linear_combination (-(x*z)) * hsc + (-(x*z)) * (1 - c)^2 * ha'
    · linear_combination (-(x*y)) * hsc + (-(x*y)) * (1 - c)^2 * ha'
    · linear_combination (x^2 + z^2) * hsc + (x^2 + z^2) * (1 - c)^2 * ha'
    · linear_combination (-(y*z)) * hsc + (-(y*z)) * (1 - c)^2 * ha'
    · linear_combination (-(x*z)) * hsc + (-(x*z)) * (1 - c)^2 * ha'
    · linear_combination (-(y*z)) * hsc + (-(y*z)) * (1 - c)^2 * ha'
    · linear_combination (x^2 + y^2) * hsc + (x^2 + y^2) * (1 - c)^2 * ha'
  · simp only [rodriguesMat, kmat, Mat3.mul, Mat3.add, Mat3.smul, Mat3.id3,
      Mat3.det]
    linear_combination hsc +
      (-2*(1 - c) + (1 - c)^2 * (x^2 + y^2 + z^2 + 1) + s^2) * ha'

/-- Every matrix produced by `create_calibration_offset` is a proper
rotation: the identity branch trivially, and both Rodrigues branches
because the axis is the output of `normalize_vector` (hence unit) and
`sin² + cos² = 1`. -/
lemma create_calibration_offset_proper (v w : Vec3) :
    isProperRotation (create_calibration_offset v w) := by
  dsimp only [create_calibration_offset]
  split
  · exact id3_proper
  · split
    · exact rodriguesMat_proper _ (normalize_unit _) _ _
        (Real.sin_sq_add_cos_sq Real.pi)
    · exact rodriguesMat_proper _ (normalize_unit _) _ _
        (Real.sin_sq_add_cos_sq _)

/-! ## Reachable processor states -/

/-- States of a `SpatialProcessor` reachable by construction,
`calibrate`, `reset_calibration`, and `process` calls (with any fault
behavior of the fallible bodies). -/
inductive Reachable : ProcState → Prop
  | init : Reachable initState
  | cal (st : ProcState) (s : SensorData) (t : Vec3) (f : Bool) :
      Reachable st → Reachable (calibrate st s t f).1
  | res (st : ProcState) : Reachable st → Reachable (reset_calibration st)
  | proc (st : ProcState) (s : SensorData) (up bn bx : Vec3) (f : Bool) :
      Reachable st → Reachable (process st s up bn bx f).1

/-- The calibration-record invariant of claim C3: rotation matrix and
target direction are present exactly when `is_calibrated`, and any
present rotation matrix is a proper rotation. -/
def CalInv (st : ProcState) : Prop :=
  st.calibration.rotation_matrix.isSome = st.calibration.is_calibrated ∧
  st.calibration.target_direction.isSome = st.calibration.is_calibrated ∧
  ∀ R, st.calibration.rotation_matrix = some R → isProperRotation R

/-! ## Slab-loop safety facts -/

/-- A normalized direction always has a component of magnitude at least
`1e-8` (indeed at least `1/√3`). -/
lemma normalize_big_component (v : Vec3) :
    1e-8 ≤ |(normalize_vector v).x| ∨ 1e-8 ≤ |(normalize_vector v).y| ∨
      1e-8 ≤ |(normalize_vector v).z| := by
  by_contra hcon
  push_neg at hcon
  obtain ⟨h1, h2, h3⟩ := hcon
  have hd := normalize_unit v
  set d := normalize_vector v
  simp only [Vec3.dot] at hd
  nlinarith [abs_nonneg d.x, abs_nonneg d.y, abs_nonneg d.z,
    sq_abs d.x, sq_abs d.y, sq_abs d.z, sq_nonneg d.x, sq_nonneg d.y,
    sq_nonneg d.z]

/-- A slab step on a non-parallel axis either rejects the ray or yields
a populated `(t_near, t_far)` state: both running values are written on
any axis that is not parallel. -/
lemma axisStep_nonpar (o d bn bx : ℝ) (st : Option (ℝ × ℝ))
    (h : 1e-8 ≤ |d|) :
    axisStep o d bn bx st = none ∨
      ∃ p, axisStep o d bn bx st = some (some p) := by
  unfold axisStep
  rw [if_neg (not_lt.mpr h)]
  cases st with
  | none =>
    dsimp only
    split_ifs <;> first | exact Or.inl rfl | exact Or.inr ⟨_, rfl⟩
  | some p =>
    obtain ⟨tn, tf⟩ := p
    dsimp only
    split_ifs <;> first | exact Or.inl rfl | exact Or.inr ⟨_, rfl⟩

/-- A slab step never forgets an already-populated `(t_near, t_far)`
state: from a populated state it either rejects or stays populated. -/
lemma axisStep_preserve (o d bn bx : ℝ) (p : ℝ × ℝ) :
    axisStep o d bn bx (some p) = none ∨
      ∃ q, axisStep o d bn bx (some p) = some (some q) := by
  unfold axisStep
  split
  · split
    · exact Or.inl rfl
    · exact Or.inr ⟨p, rfl⟩
  · obtain ⟨tn, tf⟩ := p
    dsimp only
    split_ifs <;> first | exact Or.inl rfl | exact Or.inr ⟨_, rfl⟩

/-- If some component of the direction has magnitude at least `1e-8`,
the slab loop either rejects the ray or ends with both `t_near` and
`t_far` written: the not-yet-updated final state (which in the Python
source would produce a non-finite point) is unreachable. -/
lemma slabLoop_populated (o d bn bx : Vec3)
    (h : 1e-8 ≤ |d.x| ∨ 1e-8 ≤ |d.y| ∨ 1e-8 ≤ |d.z|) :
    slabLoop o d bn bx = none ∨
      ∃ p, slabLoop o d bn bx = some (some p) := by
  unfold slabLoop
  rcases h with hx | hy | hz
  · rcases axisStep_nonpar o.x d.x bn.x bx.x none hx with h1 | ⟨p, h1⟩ <;>
      rw [h1]
    · exact Or.inl rfl
    · dsimp only
      rcases axisStep_preserve o.y d.y bn.y bx.y p with h2 | ⟨q, h2⟩ <;>
        rw [h2]
      · exact Or.inl rfl
      · dsimp only
        rcases axisStep_preserve o.z d.z bn.z bx.z q with h3 | ⟨r, h3⟩ <;>
          rw [h3]
        · exact Or.inl rfl
        · exact Or.inr ⟨r, rfl⟩
  · cases h1 : axisStep o.x d.x bn.x bx.x none with
    | none =>
      exact Or.inl rfl
    | some st1 =>
      dsimp only
      rcases axisStep_nonpar o.y d.y bn.y bx.y st1 hy with h2 | ⟨q, h2⟩ <;>
        rw [h2]
      · exact Or.inl rfl
      · dsimp only
        rcases axisStep_preserve o.z d.z bn.z bx.z q with h3 | ⟨r, h3⟩ <;>
          rw [h3]
        · exact Or.inl rfl
        · exact Or.inr ⟨r, rfl⟩
  · cases h1 : axisStep o.x d.x bn.x bx.x none with
    | none =>
      exact Or.inl rfl
    | some st1 =>
      dsimp only
      cases h2 : axisStep o.y d.y bn.y bx.y st1 with
      | none =>
        exact Or.inl rfl
      | some st2 =>
        dsimp only
        rcases axisStep_nonpar o.z d.z bn.z bx.z st2 hz with h3 | ⟨r, h3⟩ <;>
          rw [h3]
        · exact Or.inl rfl
        · exact Or.inr ⟨r, rfl⟩

/-! ## Vector and matrix algebra for the calibration proof -/

lemma mulVec_add (A B : Mat3) (v : Vec3) :
    (Mat3.add A B).mulVec v = Vec3.add (A.mulVec v) (B.mulVec v) := by
  ext <;> simp [Mat3.add, Mat3.mulVec, Vec3.add] <;> ring

lemma mulVec_smulM (a : ℝ) (A : Mat3) (v : Vec3) :
    (Mat3.smul a A).mulVec v = Vec3.smul a (A.mulVec v) := by
  ext <;> simp [Mat3.smul, Mat3.mulVec, Vec3.smul] <;> ring

lemma mulVec_mul (A B : Mat3) (v : Vec3) :
    (Mat3.mul A B).mulVec v = A.mulVec (B.mulVec v) := by
  ext <;> simp [Mat3.mul, Mat3.mulVec] <;> ring

lemma mulVec_id3 (v : Vec3) : Mat3.id3.mulVec v = v := by
  ext <;> simp [Mat3.id3, Mat3.mulVec]

lemma mulVec_smulArg (A : Mat3) (a : ℝ) (v : Vec3) :
    A.mulVec (Vec3.smul a v) = Vec3.smul a (A.mulVec v) := by
  ext <;> simp [Mat3.mulVec, Vec3.smul] <;> ring

lemma kmat_mulVec (a v : Vec3) : (kmat a).mulVec v = Vec3.cross a v := by
  ext <;> simp [kmat, Mat3.mulVec, Vec3.cross] <;> ring

/-- The action of the Rodrigues matrix:
`R v = v + s (a × v) + (1-c) (a × (a × v))`. -/
lemma rodrigues_apply (a : Vec3) (s c : ℝ) (v : Vec3) :
    (rodriguesMat a s c).mulVec v =
      Vec3.add (Vec3.add v (Vec3.smul s (Vec3.cross a v)))
        (Vec3.smul (1 - c) (Vec3.cross a (Vec3.cross a v))) := by
  unfold rodriguesMat
  rw [mulVec_add, mulVec_add, mulVec_smulM, mulVec_smulM, mulVec_mul,
    mulVec_id3, kmat_mulVec, kmat_mulVec]

lemma cross_sdiv_left (u v : Vec3) (n : ℝ) :
    Vec3.cross (Vec3.sdiv u n) v = Vec3.sdiv (Vec3.cross u v) n := by
  ext <;> simp [Vec3.cross, Vec3.sdiv] <;> ring

lemma cross_sdiv_right (u v : Vec3) (n : ℝ) :
    Vec3.cross u (Vec3.sdiv v n) = Vec3.sdiv (Vec3.cross u v) n := by
  ext <;> simp [Vec3.cross, Vec3.sdiv] <;> ring

/-- `(c × t) × c = (c·c) t - (c·t) c`. -/
lemma cross_cross_right (c t : Vec3) :
    Vec3.cross (Vec3.cross c t) c =
      Vec3.sub (Vec3.smul (Vec3.dot c c) t) (Vec3.smul (Vec3.dot c t) c) := by
  ext <;> simp [Vec3.cross, Vec3.sub, Vec3.smul, Vec3.dot] <;> ring

/-- `u × (u × v) = (u·v) u - (u·u) v`. -/
lemma cross_cross_self (u v : Vec3) :
    Vec3.cross u (Vec3.cross u v) =
      Vec3.sub (Vec3.smul (Vec3.dot u v) u) (Vec3.smul (Vec3.dot u u) v) := by
  ext <;> simp [Vec3.cross, Vec3.sub, Vec3.smul, Vec3.dot] <;> ring

lemma dot_cross_self (c t : Vec3) : Vec3.dot (Vec3.cross c t) c = 0 := by
  simp [Vec3.cross, Vec3.dot]
  ring

/-- Lagrange's identity for the cross product. -/
lemma lagrange (c t : Vec3) :
    Vec3.dot (Vec3.cross c t) (Vec3.cross c t) =
      Vec3.dot c c * Vec3.dot t t - (Vec3.dot c t) ^ 2 := by
  simp [Vec3.cross, Vec3.dot]
  ring

lemma smul_sdiv_cancel (m : ℝ) (hm : m ≠ 0) (v : Vec3) :
    Vec3.smul m (Vec3.sdiv v m) = v := by
  ext <;> simp [Vec3.smul, Vec3.sdiv] <;> field_simp

lemma sdiv_smul_cancel (m : ℝ) (hm : m ≠ 0) (v : Vec3) :
    Vec3.sdiv (Vec3.smul m v) m = v := by
  ext <;> simp [Vec3.smul, Vec3.sdiv] <;>
    exact mul_div_cancel_left₀ _ hm

lemma norm_smul (a : ℝ) (v : Vec3) :
    Vec3.norm (Vec3.smul a v) = |a| * Vec3.norm v := by
  unfold Vec3.norm Vec3.smul Vec3.dot
  rw [show a * v.x * (a * v.x) + a * v.y * (a * v.y) + a * v.z * (a * v.z) =
      a ^ 2 * (v.x * v.x + v.y * v.y + v.z * v.z) from by ring,
    Real.sqrt_mul (sq_nonneg a), Real.sqrt_sq_eq_abs]

lemma cross_sdiv_cross_sdiv (u v : Vec3) (n : ℝ) :
    Vec3.cross (Vec3.sdiv u n) (Vec3.cross (Vec3.sdiv u n) v) =
      Vec3.sdiv (Vec3.sdiv (Vec3.cross u (Vec3.cross u v)) n) n := by
  ext <;> simp [Vec3.cross, Vec3.sdiv] <;> ring

/-- On the generic Rodrigues branch (normalized dot product in
`[-0.9999, 0.9999]`), the rotation built by the source maps the unit
current vector exactly onto the unit target vector. -/
lemma rodrigues_generic_exact (c t : Vec3) (hc : Vec3.dot c c = 1)
    (ht : Vec3.dot t t = 1) (h1 : Vec3.dot c t ≤ 0.9999)
    (h2 : -0.9999 ≤ Vec3.dot c t) :
    (rodriguesMat (normalize_vector (Vec3.cross c t))
      (Real.sin (Real.arccos (clamp (Vec3.dot c t) (-1) 1)))
      (Real.cos (Real.arccos (clamp (Vec3.dot c t) (-1) 1)))).mulVec c = t := by
  have hclamp : clamp (Vec3.dot c t) (-1) 1 = Vec3.dot c t := by
    unfold clamp
    rw [min_eq_left (by linarith), max_eq_right (by linarith)]
  have hcos : Real.cos (Real.arccos (Vec3.dot c t)) = Vec3.dot c t :=
    Real.cos_arccos (by linarith) (by linarith)
  have huu : Vec3.dot (Vec3.cross c t) (Vec3.cross c t) =
      1 - (Vec3.dot c t) ^ 2 := by
    rw [lagrange, hc, ht]
    ring
  have hup : (0:ℝ) < 1 - (Vec3.dot c t) ^ 2 := by nlinarith
  have hnorm : Vec3.norm (Vec3.cross c t) =
      Real.sqrt (1 - (Vec3.dot c t) ^ 2) := by
    unfold Vec3.norm
    rw [huu]
  have hsin : Real.sin (Real.arccos (Vec3.dot c t)) =
      Vec3.norm (Vec3.cross c t) := by
    rw [Real.sin_arccos, hnorm]
  have hnge : 1e-10 ≤ Vec3.norm (Vec3.cross c t) := by
    rw [hnorm]
    have h3 : ((1e-10 : ℝ)) ^ 2 ≤ 1 - (Vec3.dot c t) ^ 2 := by nlinarith
    calc (1e-10 : ℝ) = Real.sqrt ((1e-10 : ℝ) ^ 2) :=
          (Real.sqrt_sq (by norm_num)).symm
      _ ≤ Real.sqrt (1 - (Vec3.dot c t) ^ 2) := Real.sqrt_le_sqrt h3
  have hnpos : (0:ℝ) < Vec3.norm (Vec3.cross c t) := by linarith
  have hnne : Vec3.norm (Vec3.cross c t) ≠ 0 := ne_of_gt hnpos
  have hn2 : (Vec3.norm (Vec3.cross c t)) ^ 2 = 1 - (Vec3.dot c t) ^ 2 := by
    rw [Vec3.sq_norm, huu]
  rw [hclamp, hcos, hsin, normalize_of_ge _ hnge, rodrigues_apply,
    cross_sdiv_cross_sdiv, cross_sdiv_left, cross_cross_self,
    dot_cross_self, huu, cross_cross_right, hc]
  set N := Vec3.norm (Vec3.cross c t) with hNdef
  ext
  · simp only [Vec3.add, Vec3.smul, Vec3.sdiv, Vec3.sub]
    field_simp
    linear_combination (c.x * (1 - Vec3.dot c t)) * hn2
  · simp only [Vec3.add, Vec3.smul, Vec3.sdiv, Vec3.sub]
    field_simp
    linear_combination (c.y * (1 - Vec3.dot c t)) * hn2
  · simp only [Vec3.add, Vec3.smul, Vec3.sdiv, Vec3.sub]
    field_simp
    linear_combination (c.z * (1 - Vec3.dot c t)) * hn2

/-! ## Bridging the sequential slab loop and the declarative slab spec -/

lemma swap_pair (t1 t2 : ℝ) :
    (if t2 < t1 then (t2, t1) else (t1, t2)) = (min t1 t2, max t1 t2) := by
  split
  · rename_i h
    rw [min_eq_right (le_of_lt h), max_eq_left (le_of_lt h)]
  · rename_i h
    push_neg at h
    rw [min_eq_left h, max_eq_right h]

lemma axisStep_par_out (o d bn bx : ℝ) (st : Option (ℝ × ℝ))
    (hp : |d| < 1e-8) (ho : o < bn ∨ bx < o) :
    axisStep o d bn bx st = none := by
  unfold axisStep
  rw [if_pos hp, if_pos ho]

lemma axisStep_par_in (o d bn bx : ℝ) (st : Option (ℝ × ℝ))
    (hp : |d| < 1e-8) (ho : ¬ (o < bn ∨ bx < o)) :
    axisStep o d bn bx st = some st := by
  unfold axisStep
  rw [if_pos hp, if_neg ho]

lemma axisStep_np_none (o d bn bx : ℝ) (hp : ¬ |d| < 1e-8) :
    axisStep o d bn bx none =
      some (some (min ((bn - o) / d) ((bx - o) / d),
        max ((bn - o) / d) ((bx - o) / d))) := by
  unfold axisStep
  rw [if_neg hp]
  dsimp only
  rw [swap_pair]
  dsimp only
  rw [if_neg (not_lt.mpr min_le_max)]

lemma axisStep_np_some (o d bn bx tn tf : ℝ) (hp : ¬ |d| < 1e-8) :
    axisStep o d bn bx (some (tn, tf)) =
      if min tf (max ((bn - o) / d) ((bx - o) / d)) <
          max tn (min ((bn - o) / d) ((bx - o) / d)) then none
      else some (some (max tn (min ((bn - o) / d) ((bx - o) / d)),
        min tf (max ((bn - o) / d) ((bx - o) / d)))) := by
  unfold axisStep
  rw [if_neg hp]
  dsimp only
  rw [swap_pair]

lemma parallelOutside_iff (o d bn bx : ℝ) :
    parallelOutside o d bn bx ↔ |d| < 1e-8 ∧ (o < bn ∨ bx < o) := by
  unfold parallelOutside
  rw [not_and_or, not_le, not_le]

lemma axisInterval_par (o d bn bx : ℝ) (hp : |d| < 1e-8) :
    axisInterval o d bn bx = none := by
  unfold axisInterval
  rw [if_pos hp]

lemma axisInterval_np (o d bn bx : ℝ) (hp : ¬ |d| < 1e-8) :
    axisInterval o d bn bx =
      some (min ((bn - o) / d) ((bx - o) / d),
        max ((bn - o) / d) ((bx - o) / d)) := by
  unfold axisInterval
  rw [if_neg hp]

lemma joinInterval_none_left (b : Option (ℝ × ℝ)) :
    joinInterval none b = b := rfl

lemma joinInterval_some_none (a : ℝ × ℝ) :
    joinInterval (some a) none = some a := by
  unfold joinInterval
  rfl

lemma joinInterval_some_some (l1 h1 l2 h2 : ℝ) :
    joinInterval (some (l1, h1)) (some (l2, h2)) =
      some (max l1 l2, min h1 h2) := rfl

lemma not_PO_of_np (o d bn bx : ℝ) (hp : ¬ |d| < 1e-8) :
    ¬ parallelOutside o d bn bx := fun hc => hp hc.1

lemma not_PO_of_in (o d bn bx : ℝ) (ho : ¬ (o < bn ∨ bx < o)) :
    ¬ parallelOutside o d bn bx := by
  rw [parallelOutside_iff]
  tauto

lemma noPO3 {ox dx bnx bxx oy dy bny bxy oz dz bnz bxz : ℝ}
    (hx : ¬ parallelOutside ox dx bnx bxx)
    (hy : ¬ parallelOutside oy dy bny bxy)
    (hz : ¬ parallelOutside oz dz bnz bxz) :
    ¬ (parallelOutside ox dx bnx bxx ∨ parallelOutside oy dy bny bxy ∨
      parallelOutside oz dz bnz bxz) := by
  tauto

lemma final_checks_eq (o d : Vec3) (tn tf : ℝ) (h : ¬ tf < tn) :
    (if tf < 0 then (none : Option Vec3)
     else some (Vec3.add o (Vec3.smul (if 0 ≤ tn then tn else tf) d))) =
    (if tf < tn ∨ tf < 0 then none
     else some (Vec3.add o (Vec3.smul (if 0 ≤ tn then tn else tf) d))) := by
  by_cases h0 : tf < 0
  · rw [if_pos h0, if_pos (Or.inr h0)]
  · rw [if_neg h0, if_neg (show ¬ (tf < tn ∨ tf < 0) from by tauto)]

/-! ## Claim theorems -/

/-- Claim C7: for every input vector `v`, `normalize_vector` returns
`v` divided by its Euclidean norm when `|v| ≥ 1e-10`, and the canonical
fallback `(0, 1, 0)` when `|v| < 1e-10`; both cases produce a plain
vector, never an error. -/
theorem normalize_vector_cases (v : Vec3) :
    (Vec3.norm v < 1e-10 → normalize_vector v = ⟨0, 1, 0⟩) ∧
    (1e-10 ≤ Vec3.norm v → normalize_vector v = Vec3.sdiv v (Vec3.norm v)) :=
  ⟨normalize_of_lt v, normalize_of_ge v⟩

/-- Witness for C7: the zero vector falls back to `(0, 1, 0)` and
`(3, 0, 0)` normalizes to `(1, 0, 0)`. -/
theorem normalize_vector_cases_witness :
    normalize_vector ⟨0, 0, 0⟩ = ⟨0, 1, 0⟩ ∧
    normalize_vector ⟨3, 0, 0⟩ = ⟨1, 0, 0⟩ := by
  have h0 : Vec3.norm ⟨0, 0, 0⟩ = 0 := by
    simp [Vec3.norm, Vec3.dot]
  have h3 : Vec3.norm ⟨3, 0, 0⟩ = 3 := by
    unfold Vec3.norm Vec3.dot
    rw [show (3 : ℝ) * 3 + 0 * 0 + 0 * 0 = 3 ^ 2 by norm_num]
    exact Real.sqrt_sq (by norm_num)
  constructor
  · exact (normalize_vector_cases ⟨0, 0, 0⟩).1 (by rw [h0]; norm_num)
  · rw [(normalize_vector_cases ⟨3, 0, 0⟩).2 (by rw [h3]; norm_num), h3]
    unfold Vec3.sdiv
    norm_num

/-- Claim C5: for yaw in `[0, 360)`, pitch in `[-180, 180]` and any
roll, `euler_to_direction` equals the spec formula
`normalize((sin(radians(-yaw))*cos(radians(pitch)),
cos(radians(-yaw))*cos(radians(pitch)), sin(radians(pitch))))`, and the
result does not depend on roll. -/
theorem euler_to_direction_spec (yaw pitch roll : ℝ)
    (h1 : 0 ≤ yaw) (h2 : yaw < 360) (h3 : -180 ≤ pitch) (h4 : pitch ≤ 180) :
    euler_to_direction yaw pitch roll = eulerSpec yaw pitch roll ∧
    ∀ roll', euler_to_direction yaw pitch roll' =
      euler_to_direction yaw pitch roll :=
  ⟨rfl, fun _ => rfl⟩

/-- Witness for C5 at yaw 0, pitch 0, roll 5. -/
theorem euler_to_direction_spec_witness :
    euler_to_direction 0 0 5 = eulerSpec 0 0 5 ∧
    euler_to_direction 0 0 7 = euler_to_direction 0 0 5 := by
  have h := euler_to_direction_spec 0 0 5 (by norm_num) (by norm_num)
    (by norm_num) (by norm_num)
  exact ⟨h.1, h.2 7⟩

/-- Claim C8: after any sequence of `calibrate` calls,
`reset_calibration` yields exactly the freshly constructed state
(`is_calibrated = false`, `alpha_offset = 0`, no rotation matrix or
target), and `reset_calibration` is idempotent. -/
theorem reset_calibration_spec :
    (∀ ops : List (SensorData × Vec3 × Bool),
      reset_calibration
        (ops.foldl (fun s op => (calibrate s op.1 op.2.1 op.2.2).1) initState)
        = initState) ∧
    (∀ st : ProcState,
      reset_calibration (reset_calibration st) = reset_calibration st) :=
  ⟨fun _ => rfl, fun _ => rfl⟩

/-- Claim C9: `process` never mutates the processor: on every path
(success, miss, or internal fault) the state component of the result is
the input state. -/
theorem process_no_mutation (st : ProcState) (sensor : SensorData)
    (user_position bounds_min bounds_max : Vec3) (fault : Bool) :
    (process st sensor user_position bounds_min bounds_max fault).1 = st := by
  unfold process
  split
  · rfl
  · dsimp only
    split <;> rfl

/-- Claim C3: in every reachable state of a `SpatialProcessor`, the
rotation matrix and target direction are present iff `is_calibrated`,
and any present rotation matrix is a proper rotation (orthonormal
columns, determinant `+1`). -/
theorem calibration_invariant (st : ProcState) (h : Reachable st) :
    CalInv st := by
  induction h with
  | init =>
    exact ⟨rfl, rfl, fun R hR => by cases hR⟩
  | cal st s t f hst ih =>
    unfold calibrate
    split
    · exact ⟨ih.1, ih.2.1, ih.2.2⟩
    · refine ⟨rfl, rfl, fun R hR => ?_⟩
      obtain rfl := Option.some.inj hR
      exact create_calibration_offset_proper _ _
  | res st hst ih =>
    exact ⟨rfl, rfl, fun R hR => by cases hR⟩
  | proc st s up bn bx f hst ih =>
    rw [process_no_mutation]
    exact ih

/-- Witness for C3 at the freshly constructed state. -/
theorem calibration_invariant_witness : CalInv initState :=
  calibration_invariant initState Reachable.init

/-- Counterexample to claim C1 as stated: starting from the fresh state
(alpha offset `0`), a `calibrate` call with sensor yaw `90` that hits an
internal fault returns `false`, yet the resulting state differs from the
pre-call state, because step 1 of `calibrate` has already overwritten
the alpha offset with the sample's yaw. -/
theorem calibrate_not_atomic :
    (calibrate initState ⟨90, 0, 0, none⟩ ⟨0, 1, 0⟩ true).2 = false ∧
    (calibrate initState ⟨90, 0, 0, none⟩ ⟨0, 1, 0⟩ true).1 ≠ initState := by
  constructor
  · rfl
  · intro h
    have h' := congrArg ProcState.alpha_offset h
    simp only [calibrate, initState, if_pos] at h'
    norm_num at h'

/-- Claim C1 as amended: `calibrate` returns `true` and stores the new
calibration state unless an internal numeric fault occurs; on a fault it
returns `false` and leaves the calibration record unchanged, but the
alpha offset has already been set to the sample's yaw (step 1 executes
before any fallible operation). -/
theorem calibrate_behavior (st : ProcState) (sensor : SensorData)
    (target : Vec3) (fault : Bool) :
    (fault = false →
      (calibrate st sensor target fault).2 = true ∧
      (calibrate st sensor target fault).1 =
        { calibration :=
            { is_calibrated := true
              rotation_matrix := some (create_calibration_offset
                (euler_to_direction (pymod (sensor.alpha - sensor.alpha) 360)
                  sensor.beta sensor.gamma)
                (Vec3.sdiv target (Vec3.norm target)))
              target_direction := some target }
          alpha_offset := sensor.alpha }) ∧
    (fault = true →
      (calibrate st sensor target fault).2 = false ∧
      (calibrate st sensor target fault).1.calibration = st.calibration ∧
      (calibrate st sensor target fault).1.alpha_offset = sensor.alpha) := by
  constructor
  · intro h
    subst h
    exact ⟨rfl, rfl⟩
  · intro h
    subst h
    exact ⟨rfl, rfl, rfl⟩

/-- Witness for the amended C1, exercising both the fault-free and the
faulting branch at concrete inputs. -/
theorem calibrate_behavior_witness :
    (calibrate initState ⟨90, 0, 0, none⟩ ⟨0, 1, 0⟩ false).2 = true ∧
    (calibrate initState ⟨90, 0, 0, none⟩ ⟨0, 1, 0⟩ true).1.alpha_offset = 90 :=
  ⟨((calibrate_behavior initState ⟨90, 0, 0, none⟩ ⟨0, 1, 0⟩ false).1 rfl).1,
   ((calibrate_behavior initState ⟨90, 0, 0, none⟩ ⟨0, 1, 0⟩ true).2 rfl).2.2⟩

/-- Claim C6: with at least two buffered samples whose two most recent
yaw values differ by more than 180, `get_interpolated` interpolates the
yaw channel along the shorter circular arc — 360 is added to the smaller
endpoint before the linear interpolation and the result is wrapped back
into `[0, 360)` — and in particular, for samples `yaw=350@t=1000` and
`yaw=10@t=2000`, `get_interpolated 1500` returns a yaw in
`[330, 360) ∪ [0, 30)`. -/
theorem get_interpolated_shortest_arc :
    (∀ (b : LatencyBuffer) (target_time : ℝ) (l : List BufferSample)
        (s1 s2 : BufferSample),
      b.samples = l ++ [s1, s2] →
      s2.timestamp - s1.timestamp ≠ 0 →
      180 < |s2.data.alpha - s1.data.alpha| →
      (get_interpolated b target_time =
        some
          { alpha := shortestArcAlpha s1.data.alpha s2.data.alpha
              (max 0 (min 1.5 ((target_time - s1.timestamp) /
                (s2.timestamp - s1.timestamp))))
            beta := lerp s1.data.beta s2.data.beta
              (max 0 (min 1.5 ((target_time - s1.timestamp) /
                (s2.timestamp - s1.timestamp))))
            gamma := lerp s1.data.gamma s2.data.gamma
              (max 0 (min 1.5 ((target_time - s1.timestamp) /
                (s2.timestamp - s1.timestamp)))) }) ∧
      (∀ r, get_interpolated b target_time = some r →
        0 ≤ r.alpha ∧ r.alpha < 360)) ∧
    (∀ r, get_interpolated ⟨3, [⟨⟨350, 0, 0⟩, 1000⟩, ⟨⟨10, 0, 0⟩, 2000⟩]⟩ 1500
        = some r →
      (330 ≤ r.alpha ∧ r.alpha < 360) ∨ (0 ≤ r.alpha ∧ r.alpha < 30)) := by
  have key : ∀ (b : LatencyBuffer) (target_time : ℝ) (l : List BufferSample)
      (s1 s2 : BufferSample),
      b.samples = l ++ [s1, s2] →
      s2.timestamp - s1.timestamp ≠ 0 →
      get_interpolated b target_time =
        some
          { alpha := interpAlpha s1.data.alpha s2.data.alpha
              (max 0 (min 1.5 ((target_time - s1.timestamp) /
                (s2.timestamp - s1.timestamp))))
            beta := lerp s1.data.beta s2.data.beta
              (max 0 (min 1.5 ((target_time - s1.timestamp) /
                (s2.timestamp - s1.timestamp))))
            gamma := lerp s1.data.gamma s2.data.gamma
              (max 0 (min 1.5 ((target_time - s1.timestamp) /
                (s2.timestamp - s1.timestamp)))) } := by
    intro b tt l s1 s2 hsamp ht
    have hrev : b.samples.reverse = s2 :: s1 :: l.reverse := by
      rw [hsamp]
      simp
    unfold get_interpolated
    rw [hrev]
    dsimp only
    rw [if_neg ht]
  constructor
  · intro b tt l s1 s2 hsamp ht hwrap
    constructor
    · rw [key b tt l s1 s2 hsamp ht,
        interpAlpha_eq_shortestArc _ _ _ hwrap]
    · intro r hr
      rw [key b tt l s1 s2 hsamp ht] at hr
      obtain rfl := Option.some.inj hr
      have := pymod_nonneg_lt
        (lerp (if s1.data.alpha < s2.data.alpha then s1.data.alpha + 360
            else s1.data.alpha)
          (if s1.data.alpha < s2.data.alpha then s2.data.alpha
            else s2.data.alpha + 360)
          (max 0 (min 1.5 ((tt - s1.timestamp) /
            (s2.timestamp - s1.timestamp)))))
      rw [interpAlpha_eq_shortestArc _ _ _ hwrap]
      unfold shortestArcAlpha
      dsimp only
      rcases lt_or_ge s1.data.alpha s2.data.alpha with hlt | hge
      · rw [if_pos hlt]
        rw [if_pos hlt, if_pos hlt] at this
        simpa using this
      · rw [if_neg (not_lt.mpr hge)]
        rw [if_neg (not_lt.mpr hge), if_neg (not_lt.mpr hge)] at this
        simpa using this
  · intro r hr
    rw [key ⟨3, [⟨⟨350, 0, 0⟩, 1000⟩, ⟨⟨10, 0, 0⟩, 2000⟩]⟩ 1500 []
      ⟨⟨350, 0, 0⟩, 1000⟩ ⟨⟨10, 0, 0⟩, 2000⟩ rfl (by norm_num)] at hr
    obtain rfl := Option.some.inj hr
    right
    have hval : interpAlpha 350 10
        (max 0 (min 1.5 ((1500 - 1000) / (2000 - 1000)))) = 0 := by
      have hf : max (0:ℝ) (min 1.5 ((1500 - 1000) / (2000 - 1000))) = 1/2 := by
        norm_num
      rw [hf]
      unfold interpAlpha
      rw [if_pos (by norm_num), if_neg (by norm_num)]
      dsimp only
      unfold lerp pymod
      norm_num
    dsimp only
    rw [hval]
    norm_num

/-- Witness for C6: the general wraparound characterization applied to
the concrete buffer `yaw=350@t=1000`, `yaw=10@t=2000` at time 1500. -/
theorem get_interpolated_shortest_arc_witness :
    get_interpolated ⟨3, [⟨⟨350, 0, 0⟩, 1000⟩, ⟨⟨10, 0, 0⟩, 2000⟩]⟩ 1500 =
      some
        { alpha := shortestArcAlpha 350 10
            (max 0 (min 1.5 ((1500 - 1000) / (2000 - 1000))))
          beta := lerp 0 0 (max 0 (min 1.5 ((1500 - 1000) / (2000 - 1000))))
          gamma := lerp 0 0
            (max 0 (min 1.5 ((1500 - 1000) / (2000 - 1000)))) } :=
  (get_interpolated_shortest_arc.1
    ⟨3, [⟨⟨350, 0, 0⟩, 1000⟩, ⟨⟨10, 0, 0⟩, 2000⟩]⟩ 1500 []
    ⟨⟨350, 0, 0⟩, 1000⟩ ⟨⟨10, 0, 0⟩, 2000⟩ rfl (by norm_num) (by norm_num)).1

/-- Claim C10: `ray_box_intersection` normalizes its direction
internally, so the direction used by the slab loop is a unit vector with
at least one component of magnitude at least `1e-8` (hence every
division in the loop is by a value of magnitude at least `1e-8`, which
is exactly the guard of the non-parallel branch), and the slab loop
either rejects the ray or ends with `t_near`/`t_far` both written — the
state that would make the source compute a non-finite intersection point
is unreachable, so every returned intersection is a finite
`origin + t * direction`. -/
theorem ray_box_internal_safety (origin direction box_min box_max : Vec3) :
    Vec3.norm (normalize_vector direction) = 1 ∧
    (1e-8 ≤ |(normalize_vector direction).x| ∨
      1e-8 ≤ |(normalize_vector direction).y| ∨
      1e-8 ≤ |(normalize_vector direction).z|) ∧
    (slabLoop origin (normalize_vector direction) box_min box_max = none ∨
      ∃ p, slabLoop origin (normalize_vector direction) box_min box_max =
        some (some p)) ∧
    (ray_box_intersection origin direction box_min box_max = none ∨
      ∃ t, ray_box_intersection origin direction box_min box_max =
        some (Vec3.add origin (Vec3.smul t (normalize_vector direction)))) := by
  refine ⟨?_, normalize_big_component direction, ?_, ?_⟩
  · unfold Vec3.norm
    rw [normalize_unit]
    exact Real.sqrt_one
  · exact slabLoop_populated origin (normalize_vector direction) box_min
      box_max (normalize_big_component direction)
  · unfold ray_box_intersection
    dsimp only
    rcases slabLoop_populated origin (normalize_vector direction) box_min
        box_max (normalize_big_component direction) with h | ⟨p, h⟩ <;>
      rw [h]
    · exact Or.inl rfl
    · obtain ⟨tn, tf⟩ := p
      dsimp only
      split
      · exact Or.inl rfl
      · exact Or.inr ⟨if 0 ≤ tn then tn else tf, rfl⟩

/-- Claim C4: `ray_box_intersection` follows the slab method exactly as
the claim describes it, on the internally normalized direction: a
parallel axis (`|direction[i]| < 1e-8`) yields no intersection exactly
when the origin coordinate lies outside the slab; otherwise
`t_near`/`t_far` accumulate over the non-parallel axes, the result is
`none` when `t_near > t_far` or `t_far < 0`, and otherwise
`origin + direction * t` with `t = t_near` if `t_near ≥ 0`, else
`t_far`.  Absence of an intersection is an empty option, never an
error. -/
theorem ray_box_follows_slab (origin direction box_min box_max : Vec3) :
    ray_box_intersection origin direction box_min box_max =
      slabSpec origin (normalize_vector direction) box_min box_max := by
  unfold ray_box_intersection
  dsimp only
  generalize normalize_vector direction = d
  unfold slabLoop slabSpec
  by_cases hpx : |d.x| < 1e-8
  · by_cases hox : origin.x < box_min.x ∨ box_max.x < origin.x
    · rw [axisStep_par_out _ _ _ _ _ hpx hox]
      dsimp only
      rw [if_pos (Or.inl ((parallelOutside_iff _ _ _ _).mpr ⟨hpx, hox⟩))]
    · rw [axisStep_par_in _ _ _ _ _ hpx hox]
      dsimp only
      by_cases hpy : |d.y| < 1e-8
      · by_cases hoy : origin.y < box_min.y ∨ box_max.y < origin.y
        · rw [axisStep_par_out _ _ _ _ _ hpy hoy]
          dsimp only
          rw [if_pos (Or.inr (Or.inl
            ((parallelOutside_iff _ _ _ _).mpr ⟨hpy, hoy⟩)))]
        · rw [axisStep_par_in _ _ _ _ _ hpy hoy]
          dsimp only
          by_cases hpz : |d.z| < 1e-8
          · by_cases hoz : origin.z < box_min.z ∨ box_max.z < origin.z
            · rw [axisStep_par_out _ _ _ _ _ hpz hoz]
              dsimp only
              rw [if_pos (Or.inr (Or.inr
                ((parallelOutside_iff _ _ _ _).mpr ⟨hpz, hoz⟩)))]
            · rw [axisStep_par_in _ _ _ _ _ hpz hoz]
              dsimp only
              rw [if_neg (noPO3
                  (not_PO_of_in origin.x d.x box_min.x box_max.x hox)
                  (not_PO_of_in origin.y d.y box_min.y box_max.y hoy)
                  (not_PO_of_in origin.z d.z box_min.z box_max.z hoz)),
                axisInterval_par origin.x d.x box_min.x box_max.x hpx,
                axisInterval_par origin.y d.y box_min.y box_max.y hpy,
                axisInterval_par origin.z d.z box_min.z box_max.z hpz,
                joinInterval_none_left, joinInterval_none_left]
          · rw [axisStep_np_none _ _ _ _ hpz]
            dsimp only
            rw [if_neg (noPO3
                (not_PO_of_in origin.x d.x box_min.x box_max.x hox)
                (not_PO_of_in origin.y d.y box_min.y box_max.y hoy)
                (not_PO_of_np origin.z d.z box_min.z box_max.z hpz)),
              axisInterval_par origin.x d.x box_min.x box_max.x hpx,
              axisInterval_par origin.y d.y box_min.y box_max.y hpy,
              axisInterval_np origin.z d.z box_min.z box_max.z hpz,
              joinInterval_none_left, joinInterval_none_left]
            dsimp only
            exact final_checks_eq _ _ _ _ (not_lt.mpr min_le_max)
      · rw [axisStep_np_none _ _ _ _ hpy]
        dsimp only
        by_cases hpz : |d.z| < 1e-8
        · by_cases hoz : origin.z < box_min.z ∨ box_max.z < origin.z
          · rw [axisStep_par_out _ _ _ _ _ hpz hoz]
            dsimp only
            rw [if_pos (Or.inr (Or.inr
              ((parallelOutside_iff _ _ _ _).mpr ⟨hpz, hoz⟩)))]
          · rw [axisStep_par_in _ _ _ _ _ hpz hoz]
            dsimp only
            rw [if_neg (noPO3
                (not_PO_of_in origin.x d.x box_min.x box_max.x hox)
                (not_PO_of_np origin.y d.y box_min.y box_max.y hpy)
                (not_PO_of_in origin.z d.z box_min.z box_max.z hoz)),
              axisInterval_par origin.x d.x box_min.x box_max.x hpx,
              axisInterval_np origin.y d.y box_min.y box_max.y hpy,
              axisInterval_par origin.z d.z box_min.z box_max.z hpz,
              joinInterval_none_left, joinInterval_some_none]
            dsimp only
            exact final_checks_eq _ _ _ _ (not_lt.mpr min_le_max)
        · rw [axisStep_np_some _ _ _ _ _ _ hpz]
          by_cases hchk :
              min (max ((box_min.y - origin.y) / d.y)
                  ((box_max.y - origin.y) / d.y))
                (max ((box_min.z - origin.z) / d.z)
                  ((box_max.z - origin.z) / d.z)) <
              max (min ((box_min.y - origin.y) / d.y)
                  ((box_max.y - origin.y) / d.y))
                (min ((box_min.z - origin.z) / d.z)
                  ((box_max.z - origin.z) / d.z))
          · rw [if_pos hchk]
            dsimp only
            rw [if_neg (noPO3
                (not_PO_of_in origin.x d.x box_min.x box_max.x hox)
                (not_PO_of_np origin.y d.y box_min.y box_max.y hpy)
                (not_PO_of_np origin.z d.z box_min.z box_max.z hpz)),
              axisInterval_par origin.x d.x box_min.x box_max.x hpx,
              axisInterval_np origin.y d.y box_min.y box_max.y hpy,
              axisInterval_np origin.z d.z box_min.z box_max.z hpz,
              joinInterval_none_left, joinInterval_some_some]
            dsimp only
            rw [if_pos (Or.inl hchk)]
          · rw [if_neg hchk]
            dsimp only
            rw [if_neg (noPO3
                (not_PO_of_in origin.x d.x box_min.x box_max.x hox)
                (not_PO_of_np origin.y d.y box_min.y box_max.y hpy)
                (not_PO_of_np origin.z d.z box_min.z box_max.z hpz)),
              axisInterval_par origin.x d.x box_min.x box_max.x hpx,
              axisInterval_np origin.y d.y box_min.y box_max.y hpy,
              axisInterval_np origin.z d.z box_min.z box_max.z hpz,
              joinInterval_none_left, joinInterval_some_some]
            dsimp only
            exact final_checks_eq _ _ _ _ hchk
  · rw [axisStep_np_none _ _ _ _ hpx]
    dsimp only
    by_cases hpy : |d.y| < 1e-8
    · by_cases hoy : origin.y < box_min.y ∨ box_max.y < origin.y
      · rw [axisStep_par_out _ _ _ _ _ hpy hoy]
        dsimp only
        rw [if_pos (Or.inr (Or.inl
          ((parallelOutside_iff _ _ _ _).mpr ⟨hpy, hoy⟩)))]
      · rw [axisStep_par_in _ _ _ _ _ hpy hoy]
        dsimp only
        by_cases hpz : |d.z| < 1e-8
        · by_cases hoz : origin.z < box_min.z ∨ box_max.z < origin.z
          · rw [axisStep_par_out _ _ _ _ _ hpz hoz]
            dsimp only
            rw [if_pos (Or.inr (Or.inr
              ((parallelOutside_iff _ _ _ _).mpr ⟨hpz, hoz⟩)))]
          · rw [axisStep_par_in _ _ _ _ _ hpz hoz]
            dsimp only
            rw [if_neg (noPO3
                (not_PO_of_np origin.x d.x box_min.x box_max.x hpx)
                (not_PO_of_in origin.y d.y box_min.y box_max.y hoy)
                (not_PO_of_in origin.z d.z box_min.z box_max.z hoz)),
              axisInterval_np origin.x d.x box_min.x box_max.x hpx,
              axisInterval_par origin.y d.y box_min.y box_max.y hpy,
              axisInterval_par origin.z d.z box_min.z box_max.z hpz,
              joinInterval_some_none, joinInterval_some_none]
            dsimp only
            exact final_checks_eq _ _ _ _ (not_lt.mpr min_le_max)
        · rw [axisStep_np_some _ _ _ _ _ _ hpz]
          by_cases hchk :
              min (max ((box_min.x - origin.x) / d.x)
                  ((box_max.x - origin.x) / d.x))
                (max ((box_min.z - origin.z) / d.z)
                  ((box_max.z - origin.z) / d.z)) <
              max (min ((box_min.x - origin.x) / d.x)
                  ((box_max.x - origin.x) / d.x))
                (min ((box_min.z - origin.z) / d.z)
                  ((box_max.z - origin.z) / d.z))
          · rw [if_pos hchk]
            dsimp only
            rw [if_neg (noPO3
                (not_PO_of_np origin.x d.x box_min.x box_max.x hpx)
                (not_PO_of_in origin.y d.y box_min.y box_max.y hoy)
                (not_PO_of_np origin.z d.z box_min.z box_max.z hpz)),
              axisInterval_np origin.x d.x box_min.x box_max.x hpx,
              axisInterval_par origin.y d.y box_min.y box_max.y hpy,
              axisInterval_np origin.z d.z box_min.z box_max.z hpz,
              joinInterval_some_none, joinInterval_some_some]
            dsimp only
            rw [if_pos (Or.inl hchk)]
          · rw [if_neg hchk]
            dsimp only
            rw [if_neg (noPO3
                (not_PO_of_np origin.x d.x box_min.x box_max.x hpx)
                (not_PO_of_in origin.y d.y box_min.y box_max.y hoy)
                (not_PO_of_np origin.z d.z box_min.z box_max.z hpz)),
              axisInterval_np origin.x d.x box_min.x box_max.x hpx,
              axisInterval_par origin.y d.y box_min.y box_max.y hpy,
              axisInterval_np origin.z d.z box_min.z box_max.z hpz,
              joinInterval_some_none, joinInterval_some_some]
            dsimp only
            exact final_checks_eq _ _ _ _ hchk
    · rw [axisStep_np_some _ _ _ _ _ _ hpy]
      by_cases hchky :
          min (max ((box_min.x - origin.x) / d.x)
              ((box_max.x - origin.x) / d.x))
            (max ((box_min.y - origin.y) / d.y)
              ((box_max.y - origin.y) / d.y)) <
          max (min ((box_min.x - origin.x) / d.x)
              ((box_max.x - origin.x) / d.x))
            (min ((box_min.y - origin.y) / d.y)
              ((box_max.y - origin.y) / d.y))
      · rw [if_pos hchky]
        dsimp only
        by_cases hpz : |d.z| < 1e-8
        · by_cases hoz : origin.z < box_min.z ∨ box_max.z < origin.z
          · rw [if_pos (Or.inr (Or.inr
              ((parallelOutside_iff _ _ _ _).mpr ⟨hpz, hoz⟩)))]
          · rw [if_neg (noPO3
                (not_PO_of_np origin.x d.x box_min.x box_max.x hpx)
                (not_PO_of_np origin.y d.y box_min.y box_max.y hpy)
                (not_PO_of_in origin.z d.z box_min.z box_max.z hoz)),
              axisInterval_np origin.x d.x box_min.x box_max.x hpx,
              axisInterval_np origin.y d.y box_min.y box_max.y hpy,
              axisInterval_par origin.z d.z box_min.z box_max.z hpz,
              joinInterval_some_some, joinInterval_some_none]
            dsimp only
            rw [if_pos (Or.inl hchky)]
        · rw [if_neg (noPO3
              (not_PO_of_np origin.x d.x box_min.x box_max.x hpx)
              (not_PO_of_np origin.y d.y box_min.y box_max.y hpy)
              (not_PO_of_np origin.z d.z box_min.z box_max.z hpz)),
            axisInterval_np origin.x d.x box_min.x box_max.x hpx,
            axisInterval_np origin.y d.y box_min.y box_max.y hpy,
            axisInterval_np origin.z d.z box_min.z box_max.z hpz,
            joinInterval_some_some, joinInterval_some_some]
          dsimp only
          rw [if_pos (Or.inl
            (lt_max_iff.mpr (Or.inl (min_lt_iff.mpr (Or.inl hchky)))))]
      · rw [if_neg hchky]
        dsimp only
        by_cases hpz : |d.z| < 1e-8
        · by_cases hoz : origin.z < box_min.z ∨ box_max.z < origin.z
          · rw [axisStep_par_out _ _ _ _ _ hpz hoz]
            dsimp only
            rw [if_pos (Or.inr (Or.inr
              ((parallelOutside_iff _ _ _ _).mpr ⟨hpz, hoz⟩)))]
          · rw [axisStep_par_in _ _ _ _ _ hpz hoz]
            dsimp only
            rw [if_neg (noPO3
                (not_PO_of_np origin.x d.x box_min.x box_max.x hpx)
                (not_PO_of_np origin.y d.y box_min.y box_max.y hpy)
                (not_PO_of_in origin.z d.z box_min.z box_max.z hoz)),
              axisInterval_np origin.x d.x box_min.x box_max.x hpx,
              axisInterval_np origin.y d.y box_min.y box_max.y hpy,
              axisInterval_par origin.z d.z box_min.z box_max.z hpz,
              joinInterval_some_some, joinInterval_some_none]
            dsimp only
            exact final_checks_eq _ _ _ _ hchky
        · rw [axisStep_np_some _ _ _ _ _ _ hpz]
          by_cases hchkz :
              min (min (max ((box_min.x - origin.x) / d.x)
                    ((box_max.x - origin.x) / d.x))
                  (max ((box_min.y - origin.y) / d.y)
                    ((box_max.y - origin.y) / d.y)))
                (max ((box_min.z - origin.z) / d.z)
                  ((box_max.z - origin.z) / d.z)) <
              max (max (min ((box_min.x - origin.x) / d.x)
                    ((box_max.x - origin.x) / d.x))
                  (min ((box_min.y - origin.y) / d.y)
                    ((box_max.y - origin.y) / d.y)))
                (min ((box_min.z - origin.z) / d.z)
                  ((box_max.z - origin.z) / d.z))
          · rw [if_pos hchkz]
            dsimp only
            rw [if_neg (noPO3
                (not_PO_of_np origin.x d.x box_min.x box_max.x hpx)
                (not_PO_of_np origin.y d.y box_min.y box_max.y hpy)
                (not_PO_of_np origin.z d.z box_min.z box_max.z hpz)),
              axisInterval_np origin.x d.x box_min.x box_max.x hpx,
              axisInterval_np origin.y d.y box_min.y box_max.y hpy,
              axisInterval_np origin.z d.z box_min.z box_max.z hpz,
              joinInterval_some_some, joinInterval_some_some]
            dsimp only
            rw [if_pos (Or.inl hchkz)]
          · rw [if_neg hchkz]
            dsimp only
            rw [if_neg (noPO3
                (not_PO_of_np origin.x d.x box_min.x box_max.x hpx)
                (not_PO_of_np origin.y d.y box_min.y box_max.y hpy)
                (not_PO_of_np origin.z d.z box_min.z box_max.z hpz)),
              axisInterval_np origin.x d.x box_min.x box_max.x hpx,
              axisInterval_np origin.y d.y box_min.y box_max.y hpy,
              axisInterval_np origin.z d.z box_min.z box_max.z hpz,
              joinInterval_some_some, joinInterval_some_some]
            dsimp only
            exact final_checks_eq _ _ _ _ hchkz

/-- Claim C2 as amended: whenever the current vector has norm at least
`1e-10` and the dot product of the normalized current and target lies in
`[-0.9999, 0.9999]` (the generic Rodrigues branch of the source),
applying the calibration rotation to the current vector yields exactly
the normalized target over exact real arithmetic — in particular well
within the claimed 0.01 tolerance. -/
theorem apply_calibration_aligns (current target : Vec3)
    (hcur : 1e-10 ≤ Vec3.norm current)
    (h1 : Vec3.dot (normalize_vector current) (normalize_vector target) ≤
      0.9999)
    (h2 : -0.9999 ≤
      Vec3.dot (normalize_vector current) (normalize_vector target)) :
    apply_calibration current (create_calibration_offset current target) =
      normalize_vector target ∧
    approxEq
      (apply_calibration current (create_calibration_offset current target))
      (normalize_vector target) := by
  have hcunit := normalize_unit current
  have htunit := normalize_unit target
  have hmpos : 0 < Vec3.norm current := by linarith
  have hmne : Vec3.norm current ≠ 0 := ne_of_gt hmpos
  have hR : create_calibration_offset current target =
      rodriguesMat
        (normalize_vector
          (Vec3.cross (normalize_vector current) (normalize_vector target)))
        (Real.sin (Real.arccos (clamp
          (Vec3.dot (normalize_vector current) (normalize_vector target))
          (-1) 1)))
        (Real.cos (Real.arccos (clamp
          (Vec3.dot (normalize_vector current) (normalize_vector target))
          (-1) 1))) := by
    unfold create_calibration_offset
    dsimp only
    rw [if_neg (not_lt.mpr h1), if_neg (not_lt.mpr h2)]
  have hexact := rodrigues_generic_exact (normalize_vector current)
    (normalize_vector target) hcunit htunit h1 h2
  have hcm : Vec3.smul (Vec3.norm current) (normalize_vector current) =
      current := by
    rw [normalize_of_ge current hcur, smul_sdiv_cancel _ hmne]
  have hval : Mat3.mulVec (create_calibration_offset current target) current =
      Vec3.smul (Vec3.norm current) (normalize_vector target) := by
    rw [hR]
    nth_rewrite 4 [← hcm]
    rw [mulVec_smulArg, hexact]
  have hnt : Vec3.norm (normalize_vector target) = 1 := by
    unfold Vec3.norm
    rw [htunit]
    exact Real.sqrt_one
  have hns : Vec3.norm
      (Vec3.smul (Vec3.norm current) (normalize_vector target)) =
      Vec3.norm current := by
    rw [norm_smul, hnt, abs_of_pos hmpos, mul_one]
  have hmain : apply_calibration current
      (create_calibration_offset current target) = normalize_vector target := by
    unfold apply_calibration
    rw [hval, normalize_of_ge _ (le_of_le_of_eq hcur hns.symm), hns,
      sdiv_smul_cancel _ hmne]
  refine ⟨hmain, ?_⟩
  rw [approxEq, hmain]
  have hz : Vec3.sub (normalize_vector target) (normalize_vector target) =
      ⟨0, 0, 0⟩ := by
    ext <;> simp [Vec3.sub]
  rw [hz]
  have h0 : Vec3.norm ⟨0, 0, 0⟩ = 0 := by
    unfold Vec3.norm Vec3.dot
    simp
  rw [h0]
  norm_num

/-- Counterexample to claim C2 as stated: for `current = (500, 3, 0)`
and `target = (500, -3, 0)` the normalized dot product is
`249991/250009 > 0.9999`, so the source returns the identity matrix, and
the resulting vector differs from the normalized target by
`sqrt (36/250009) > 0.01` — more than the claimed tolerance. -/
theorem apply_calibration_tolerance_counterexample :
    ¬ approxEq
      (apply_calibration ⟨500, 3, 0⟩
        (create_calibration_offset ⟨500, 3, 0⟩ ⟨500, -3, 0⟩))
      (normalize_vector ⟨500, -3, 0⟩) := by
  have hM2 : Real.sqrt 250009 ^ 2 = 250009 := Real.sq_sqrt (by norm_num)
  have hM2' : Real.sqrt 250009 * Real.sqrt 250009 = 250009 := by
    nlinarith [hM2]
  have hMpos : (0:ℝ) < Real.sqrt 250009 := Real.sqrt_pos.mpr (by norm_num)
  have hMne : Real.sqrt 250009 ≠ 0 := ne_of_gt hMpos
  have hnc : Vec3.norm ⟨500, 3, 0⟩ = Real.sqrt 250009 := by
    unfold Vec3.norm
    congr 1
    norm_num [Vec3.dot]
  have hnt : Vec3.norm ⟨500, -3, 0⟩ = Real.sqrt 250009 := by
    unfold Vec3.norm
    congr 1
    norm_num [Vec3.dot]
  have hMge : (1e-10:ℝ) ≤ Real.sqrt 250009 := by
    have ha : Real.sqrt 1 ≤ Real.sqrt 250009 :=
      Real.sqrt_le_sqrt (by norm_num)
    rw [Real.sqrt_one] at ha
    linarith
  have hcn : normalize_vector ⟨500, 3, 0⟩ =
      Vec3.sdiv ⟨500, 3, 0⟩ (Real.sqrt 250009) := by
    rw [normalize_of_ge _ (le_of_le_of_eq hMge hnc.symm), hnc]
  have htn : normalize_vector ⟨500, -3, 0⟩ =
      Vec3.sdiv ⟨500, -3, 0⟩ (Real.sqrt 250009) := by
    rw [normalize_of_ge _ (le_of_le_of_eq hMge hnt.symm), hnt]
  have hdot : Vec3.dot (normalize_vector ⟨500, 3, 0⟩)
      (normalize_vector ⟨500, -3, 0⟩) = 249991/250009 := by
    rw [hcn, htn]
    simp only [Vec3.dot, Vec3.sdiv]
    field_simp
    ring
  have hRid : create_calibration_offset ⟨500, 3, 0⟩ ⟨500, -3, 0⟩ =
      Mat3.id3 := by
    unfold create_calibration_offset
    dsimp only
    simp only [hdot]
    rw [if_pos (by norm_num : (0.9999:ℝ) < 249991/250009)]
  have happ : apply_calibration ⟨500, 3, 0⟩
      (create_calibration_offset ⟨500, 3, 0⟩ ⟨500, -3, 0⟩) =
      Vec3.sdiv ⟨500, 3, 0⟩ (Real.sqrt 250009) := by
    rw [hRid]
    unfold apply_calibration
    rw [mulVec_id3, hcn]
  intro hcon
  rw [approxEq, happ, htn] at hcon
  have hdd : Vec3.dot
      (Vec3.sub (Vec3.sdiv ⟨500, 3, 0⟩ (Real.sqrt 250009))
        (Vec3.sdiv ⟨500, -3, 0⟩ (Real.sqrt 250009)))
      (Vec3.sub (Vec3.sdiv ⟨500, 3, 0⟩ (Real.sqrt 250009))
        (Vec3.sdiv ⟨500, -3, 0⟩ (Real.sqrt 250009))) =
      36/250009 := by
    simp only [Vec3.dot, Vec3.sub, Vec3.sdiv]
    field_simp
    ring
  have hsq := pow_le_pow_left₀ (Vec3.norm_nonneg' _) hcon 2
  rw [Vec3.sq_norm, hdd] at hsq
  norm_num at hsq

/-- Witness for the amended C2 at `current = (1,0,0)`,
`target = (0,1,0)`: the rotated current equals the normalized target
exactly. -/
theorem apply_calibration_aligns_witness :
    apply_calibration ⟨1, 0, 0⟩
        (create_calibration_offset ⟨1, 0, 0⟩ ⟨0, 1, 0⟩) =
      normalize_vector ⟨0, 1, 0⟩ := by
  have hnx : Vec3.norm ⟨1, 0, 0⟩ = 1 := by
    unfold Vec3.norm
    rw [show Vec3.dot ⟨1, 0, 0⟩ ⟨1, 0, 0⟩ = 1 from by norm_num [Vec3.dot]]
    exact Real.sqrt_one
  have hny : Vec3.norm ⟨0, 1, 0⟩ = 1 := by
    unfold Vec3.norm
    rw [show Vec3.dot ⟨0, 1, 0⟩ ⟨0, 1, 0⟩ = 1 from by norm_num [Vec3.dot]]
    exact Real.sqrt_one
  have hdot : Vec3.dot (normalize_vector ⟨1, 0, 0⟩)
      (normalize_vector ⟨0, 1, 0⟩) = 0 := by
    rw [normalize_of_ge _ (le_of_le_of_eq (by norm_num) hnx.symm), hnx,
      normalize_of_ge _ (le_of_le_of_eq (by norm_num) hny.symm), hny]
    norm_num [Vec3.dot, Vec3.sdiv]
  exact (apply_calibration_aligns ⟨1, 0, 0⟩ ⟨0, 1, 0⟩
    (le_of_le_of_eq (by norm_num) hnx.symm)
    (by rw [hdot]; norm_num)
    (by rw [hdot]; norm_num)).1

end GyroLight
